import Mathlib

/-!
A shallow embedding of the Rekapi keyframe-animation engine
(`dist/rekapi.js`, v0.8.6) and proofs about it.

Modelling conventions:
* JS numbers holding millisecond timestamps and loop counters are modelled
  as `ℤ`; keyframe property values as `ℚ` (they are opaque to the timeline
  logic, which only hands them to the external interpolation collaborator).
* `Math.max.apply(Math, list)` yields `-Infinity` on an empty list; the
  animation-length field is therefore modelled as `WithBot ℤ`, with `⊥`
  standing for `-Infinity`.
* JS objects used as string-keyed maps are modelled as association lists in
  key-insertion order (`jsSet` reproduces JS property assignment: overwrite
  in place, or append a new key at the end).
* The external collaborators (Shifty's `Tweenable.util.interpolate`, the
  scheduling primitives `setTimeout`/`requestAnimationFrame`, and the draw
  callbacks) are opaque: interpolation is a function parameter, scheduling
  and drawing have no observable effect on the modelled state, and event
  firing is modelled by returning the list of fired event names.
* A JS `TypeError` (dereferencing an `undefined` field such as a detached
  actor's `this.kapi`) is modelled with `Except.error`.
-/

namespace Rekapi

/-- The type of the external interpolation collaborator
`Tweenable.util.interpolate(fromObj, toObj, fraction, easing)`.
The result object is modelled as a total map from property names to values. -/
abbrev Interp := List (String × ℚ) → List (String × ℚ) → ℚ → String → String → ℚ

/-- Module-level default easing identifier (`DEFAULT_EASING` in the source). -/
def DEFAULT_EASING : String := "linear"

/-- JS property assignment `obj[k] = v` on an object modelled as an
association list: overwrite an existing key in place, else append. -/
def jsSet {α : Type} (obj : List (String × α)) (k : String) (v : α) : List (String × α) :=
  if (obj.lookup k).isSome then
    obj.map (fun p => if p.1 = k then (k, v) else p)
  else obj ++ [(k, v)]

/-- Build a JS object from a list of assignments, first to last
(later assignments to the same key overwrite earlier ones). -/
def jsObjectOfPairs {α : Type} (l : List (String × α)) : List (String × α) :=
  l.foldl (fun o p => jsSet o p.1 p.2) []

/-- Underscore's `_.defaults(target, source)`: copy each `source` key that is
absent from `target`. -/
def jsDefaults {α : Type} (target source : List (String × α)) : List (String × α) :=
  source.foldl (fun t p => if (t.lookup p.1).isSome then t else t ++ [p]) target

/-- JS array indexing `arr[i]` with an integer index: out-of-range and
negative indices give `undefined` (`none`). -/
def jsIndex (l : List ℤ) (i : ℤ) : Option ℤ :=
  if i < 0 then none else l.get? i.toNat

/-- `Math.max.apply(Math, l)`: fold of binary max starting from
`Math.max()` = `-Infinity`, modelled as `⊥`. -/
def mathMax (l : List ℤ) : WithBot ℤ :=
  l.foldl (fun m x => max m (x : WithBot ℤ)) ⊥

/-- Insert a number into an ascending list, after any equal entries. -/
def insertNumAsc (x : ℤ) : List ℤ → List ℤ
  | [] => [x]
  | y :: rest => if y ≤ x then y :: insertNumAsc x rest else x :: y :: rest

/-- `Kapi.util.sortNumerically`: sort an array of numbers ascending
(realized as a stable structural insertion sort). -/
def sortNumerically (l : List ℤ) : List ℤ :=
  l.foldl (fun acc x => insertNumAsc x acc) []

/-! ### KeyframeProperty -/

/-- `Kapi.KeyframeProperty`: a single value pinned at a millisecond on one
named track.  The `id` is the unique identifier `_.uniqueId` assigns at
construction (modelled as a per-actor counter); the `ownerActor`
back-reference and the `nextProperty` link are not stored: the link is a
derived pointer recomputed on every cache rebuild, and is modelled by the
derived successor function `Actor.nextInTrack` below. -/
structure KeyframeProperty where
  id : ℕ
  millisecond : ℤ
  name : String
  value : ℚ
  easing : String
deriving DecidableEq, Repr

/-- A partial update for `KeyframeProperty.prototype.modifyWith`:
`none` models a field absent (`undefined`) in the `newProperties` argument. -/
structure KeyframePropertyPatch where
  millisecond : Option ℤ := none
  value : Option ℚ := none
  easing : Option String := none
deriving DecidableEq, Repr

/-- `KeyframeProperty.prototype.modifyWith(newProperties)`: overwrite any
subset of millisecond/easing/value, keeping fields whose patch entry is
`undefined`. -/
def KeyframeProperty.modifyWith (p : KeyframeProperty) (patch : KeyframePropertyPatch) :
    KeyframeProperty :=
  { p with
    millisecond := patch.millisecond.getD p.millisecond
    easing := patch.easing.getD p.easing
    value := patch.value.getD p.value }

/-- `KeyframeProperty.prototype.getValueAt(millisecond)`.  The mutable
`this.nextProperty` link is passed explicitly as `next`.  With no successor
the property's own value is returned; with a successor, single-key `from`
and `to` objects are built, the fraction
`(millisecond - this.millisecond) / (next.millisecond - this.millisecond)`
is computed, and the external interpolation collaborator is called with the
successor's easing; the result object is then read back at `this.name`. -/
def KeyframeProperty.getValueAt (interp : Interp) (p : KeyframeProperty)
    (next : Option KeyframeProperty) (millisecond : ℤ) : ℚ :=
  match next with
  | some np =>
    let fromObj : List (String × ℚ) := [(p.name, p.value)]
    let toObj : List (String × ℚ) := [(p.name, np.value)]
    let delta : ℚ := ((np.millisecond - p.millisecond : ℤ) : ℚ)
    let interpolatedPosition : ℚ := ((millisecond - p.millisecond : ℤ) : ℚ) / delta
    interp fromObj toObj interpolatedPosition np.easing p.name
  | none => p.value

/-! ### Actor -/

/-- `Kapi.Actor` state.  `propertyTracks` maps track names to their keyframe
lists; the two `timelineProperty*` fields are the derived lookup cache;
`live` is the Tweenable current-state object written by `this.set(...)`;
`propertyIdCounter` feeds fresh `KeyframeProperty` ids (the source uses the
process-global `_.uniqueId` counter; per-actor freshness is what the
derived successor lookup needs). -/
structure Actor where
  propertyTracks : List (String × List KeyframeProperty) := []
  timelinePropertyCacheIndex : List ℤ := []
  timelinePropertyCaches : List (ℤ × List (String × Option KeyframeProperty)) := []
  live : List (String × ℚ) := []
  propertyIdCounter : ℕ := 0
deriving DecidableEq, Repr

/-- A freshly constructed `new Kapi.Actor()`: empty tracks and caches. -/
def actorInit : Actor := {}

/-- `Actor.prototype.getStart`: the minimum first-keyframe millisecond over
nonempty tracks (`Math.min` of `[0]` when there are none). -/
def Actor.getStart (a : Actor) : ℤ :=
  let starts := a.propertyTracks.filterMap (fun p => p.2.head?.map (·.millisecond))
  let starts := if starts.isEmpty then [0] else starts
  starts.foldl min (starts.headD 0)

/-- `Actor.prototype.getEnd`: starting from `latest = 0`, raise `latest` to
each nonempty track's last millisecond when that is greater. -/
def Actor.getEnd (a : Actor) : ℤ :=
  a.propertyTracks.foldl
    (fun latest p =>
      match p.2.getLast? with
      | some kp => if kp.millisecond > latest then kp.millisecond else latest
      | none => latest) 0

/-- Insert a property into a millisecond-ascending track, after any entries
with the same millisecond (preserving first-come order among equals, as
underscore's stable `_.sortBy` does). -/
def insertKpAsc (kp : KeyframeProperty) : List KeyframeProperty → List KeyframeProperty
  | [] => [kp]
  | x :: rest =>
    if x.millisecond ≤ kp.millisecond then x :: insertKpAsc kp rest else kp :: x :: rest

/-- Underscore's `_.sortBy(track, kp => kp.millisecond)`: a stable ascending
sort by millisecond (realized as a structural insertion sort, which is
stable and ascending exactly like `_.sortBy`). -/
def sortTrack (t : List KeyframeProperty) : List KeyframeProperty :=
  t.foldl (fun acc kp => insertKpAsc kp acc) []

/-- `sortPropertyTracks(actor)`: re-sort every property track by
millisecond. -/
def sortPropertyTracks (a : Actor) : Actor :=
  { a with propertyTracks := a.propertyTracks.map (fun p => (p.1, sortTrack p.2)) }

/-- The `_keyframeProperties` id registry.  Under the operations modelled in
this development the registry always holds exactly the properties stored in
the tracks (`keyframe` adds to both, `removeKeyframe` removes from both,
`modifyKeyframeProperty` mutates the shared object), so it is represented
as the derived concatenation of all tracks. -/
def Actor.keyframePropertiesList (a : Actor) : List KeyframeProperty :=
  a.propertyTracks.foldl (fun acc p => acc ++ p.2) []

/-- Inner loop of `getLatestPropeties` for one track: underscore `_.find`
with the `previousKeyframeProperty` accumulator.  The result distinguishes
the JS bucket entry being absent (`none`), present-but-`null`
(`some none`), and present (`some (some kp)`); only the last is truthy and
short-circuits the `_.find`. -/
def trackLatestLoop (forMs : ℤ) : List KeyframeProperty → Option KeyframeProperty →
    Option (Option KeyframeProperty) → Option (Option KeyframeProperty)
  | [], _, latest => latest
  | kp :: rest, prev, latest =>
    let latest' :=
      if kp.millisecond > forMs then some prev
      else if kp.millisecond = forMs then some (some kp)
      else latest
    match latest' with
    | some (some q) => some (some q)
    | _ => trackLatestLoop forMs rest (some kp) latest'

/-- Per-track part of `getLatestPropeties`, including the trailing
last-property fallback (`if (!latestProperties[propertyName]) ...`). -/
def trackLatest (track : List KeyframeProperty) (forMs : ℤ) :
    Option (Option KeyframeProperty) :=
  let r := trackLatestLoop forMs track none none
  match r with
  | some (some q) => some (some q)
  | _ =>
    match track.getLast? with
    | some lastProp => if lastProp.millisecond ≤ forMs then some (some lastProp) else r
    | none => r

/-- `getLatestPropeties(actor, forMillisecond)`: for each track, the current
or most recent `KeyframeProperty` at `forMillisecond` (a key is absent when
the `_.find` loop never assigned it). -/
def getLatestProperties (a : Actor) (forMs : ℤ) : List (String × Option KeyframeProperty) :=
  a.propertyTracks.foldl
    (fun obj p =>
      match trackLatest p.2 forMs with
      | none => obj
      | some v => jsSet obj p.1 v) []

/-- `Actor.prototype.invalidatePropertyCache`: group all registered
keyframe properties by millisecond into buckets (later registrations of
the same track name at the same millisecond overwrite earlier ones),
numerically sort the bucket-key index, and backfill each bucket with
`_.defaults(bucket, getLatestPropeties(actor, bucketMs))`.
The `linkTrackedProperties` relinking step is represented by the derived
successor function `Actor.nextInTrack`. -/
def Actor.invalidatePropertyCache (a : Actor) : Actor :=
  let props := a.keyframePropertiesList
  let index := sortNumerically ((props.map (fun kp => kp.millisecond)).eraseDups)
  let caches := index.map (fun ms =>
    let base := jsObjectOfPairs
      ((props.filter (fun kp => kp.millisecond = ms)).map (fun kp => (kp.name, some kp)))
    (ms, jsDefaults base (getLatestProperties a ms)))
  { a with timelinePropertyCacheIndex := index, timelinePropertyCaches := caches }

/-- The element following the property with id `i` in a track. -/
def nextAfter : List KeyframeProperty → ℕ → Option KeyframeProperty
  | [], _ => none
  | x :: rest, i => if x.id = i then rest.head? else nextAfter rest i

/-- The `nextProperty` link maintained by `linkTrackedProperties`: every
cache rebuild links each property to the next entry of its (freshly
sorted) track, so the link always equals the track successor, computed
here on demand. -/
def Actor.nextInTrack (a : Actor) (kp : KeyframeProperty) : Option KeyframeProperty :=
  match a.propertyTracks.lookup kp.name with
  | none => none
  | some track => nextAfter track kp.id

/-- Linear search `getPropertyCacheIdForMillisecond`, inner loop: the JS
`for (var i = 1; i < len; i++) if (list[i] >= millisecond) return i - 1;`
running over the tail of the index with `i` the absolute position. -/
def cacheIdSearch (millisecond : ℤ) : List ℤ → ℕ → ℤ
  | [], _ => -1
  | x :: rest, i => if x ≥ millisecond then (i : ℤ) - 1 else cacheIdSearch millisecond rest (i + 1)

/-- `getPropertyCacheIdForMillisecond(actor, millisecond)`: scan the cache
index from position 1, returning one less than the first position whose
key is `≥ millisecond`, and `-1` if the scan falls off the end. -/
def getPropertyCacheIdForMillisecond (a : Actor) (millisecond : ℤ) : ℤ :=
  match a.timelinePropertyCacheIndex with
  | [] => -1
  | _ :: tail => cacheIdSearch millisecond tail 1

/-- `Actor.prototype.calculatePosition(millisecond)`: inside
`[getStart(), getEnd()]`, look up the cache bucket via
`getPropertyCacheIdForMillisecond`; an id of `-1` indexes `undefined`
(`_.each` over `undefined` iterates nothing, leaving the interpolated
object empty).  Each truthy bucket entry contributes
`keyframeProperty.getValueAt(millisecond)`; the assembled object is handed
to `this.set(...)`, which replaces the Tweenable current state (`live`).
Outside the interval nothing happens. -/
def Actor.calculatePosition (interp : Interp) (a : Actor) (millisecond : ℤ) : Actor :=
  let startMs := a.getStart
  let endMs := a.getEnd
  if startMs ≤ millisecond ∧ millisecond ≤ endMs then
    let latestCacheId := getPropertyCacheIdForMillisecond a millisecond
    let propertiesToInterpolate : List (String × Option KeyframeProperty) :=
      match jsIndex a.timelinePropertyCacheIndex latestCacheId with
      | some key => (a.timelinePropertyCaches.lookup key).getD []
      | none => []
    let interpolatedObject :=
      propertiesToInterpolate.foldl
        (fun obj p =>
          match p.2 with
          | some kp => jsSet obj p.1 (kp.getValueAt interp (a.nextInTrack kp) millisecond)
          | none => obj) []
    { a with live := interpolatedObject }
  else a

/-! ### Actor keyframe authoring -/

/-- The `opt_easing` argument of `Actor.prototype.keyframe`: either a single
easing string or a per-track-name map (`none` models the argument left
`undefined`, replaced by `DEFAULT_EASING` via `opt_easing || DEFAULT_EASING`). -/
inductive EasingArg where
  | str (s : String)
  | obj (m : List (String × String))
deriving DecidableEq, Repr

/-- The easing map after `keyframe`'s normalization: a string argument is
expanded uniformly over every key of `position` (JS `||` also replaces an
empty — falsy — string by the default). -/
def easingBase (position : List (String × ℚ)) (optEasing : Option EasingArg) :
    List (String × String) :=
  match optEasing with
  | none => position.map (fun p => (p.1, DEFAULT_EASING))
  | some (.str s) =>
    let s := if s = "" then DEFAULT_EASING else s
    position.map (fun p => (p.1, s))
  | some (.obj m) => m

/-- The easing finally given to one property: the second normalization pass
`opt_easing[name] = opt_easing[name] || DEFAULT_EASING`. -/
def effectiveEasing (position : List (String × ℚ)) (optEasing : Option EasingArg)
    (name : String) : String :=
  match (easingBase position optEasing).lookup name with
  | none => DEFAULT_EASING
  | some s => if s = "" then DEFAULT_EASING else s

/-- Append a new property to its track, creating the track if absent
(`if (!this._propertyTracks[name]) this._propertyTracks[name] = [];` then
`push`). -/
def pushToTrack (a : Actor) (name : String) (kp : KeyframeProperty) : Actor :=
  { a with propertyTracks :=
      if (a.propertyTracks.lookup name).isSome then
        a.propertyTracks.map (fun p => if p.1 = name then (p.1, p.2 ++ [kp]) else p)
      else a.propertyTracks ++ [(name, [kp])] }

/-- The per-position loop of `Actor.prototype.keyframe`: for each supplied
(name, value) pair construct a fresh `KeyframeProperty`, push it onto its
track, and re-sort all tracks. -/
def Actor.keyframeLoop (a : Actor) (when : ℤ) (position : List (String × ℚ))
    (optEasing : Option EasingArg) : Actor :=
  position.foldl
    (fun acc nv =>
      let kp : KeyframeProperty :=
        { id := acc.propertyIdCounter, millisecond := when, name := nv.1, value := nv.2,
          easing := effectiveEasing position optEasing nv.1 }
      sortPropertyTracks
        (pushToTrack { acc with propertyIdCounter := acc.propertyIdCounter + 1 } nv.1 kp))
    a

/-- Remove the first track entry whose millisecond equals `when` (the
`_.find`-then-`splice(i, 1)` of `Actor.prototype.removeKeyframe`); a track
with no match is left alone. -/
def removeFirstAt (when : ℤ) : List KeyframeProperty → List KeyframeProperty
  | [] => []
  | kp :: rest => if when = kp.millisecond then rest else kp :: removeFirstAt when rest

/-- The per-track loop of `Actor.prototype.removeKeyframe` (the registry
deletion is implicit in the derived registry). -/
def Actor.removeKeyframeLoop (a : Actor) (when : ℤ) : Actor :=
  { a with propertyTracks := a.propertyTracks.map (fun p => (p.1, removeFirstAt when p.2)) }

/-- Replace the track entry at `index` (position in the sorted track). -/
def setTrackEntry (a : Actor) (name : String) (index : ℕ) (kp : KeyframeProperty) : Actor :=
  { a with propertyTracks :=
      a.propertyTracks.map (fun p => if p.1 = name then (p.1, p.2.set index kp) else p) }

/-- `Actor.prototype.modifyKeyframeProperty(property, index, newProperties)`:
patch the property at the given track position when both exist (silent
no-op otherwise), then re-sort all tracks and rebuild the cache.  This
operation never notifies the owning engine. -/
def Actor.modifyKeyframePropertyCore (a : Actor) (property : String) (index : ℕ)
    (patch : KeyframePropertyPatch) : Actor :=
  let a :=
    match a.propertyTracks.lookup property with
    | some track =>
      match track.get? index with
      | some kp => setTrackEntry a property index (kp.modifyWith patch)
      | none => a
    | none => a
  (sortPropertyTracks a).invalidatePropertyCache

/-! ### Kapi (engine) -/

/-- The engine play states (`playState` in the source). -/
inductive PlayState where
  | STOPPED
  | PAUSED
  | PLAYING
deriving DecidableEq, Repr

/-- `Kapi` engine state.  `actors` is the id-keyed actor map; `drawOrder`
the draw-order id sequence; `animationLength` is a `WithBot ℤ` because
`_recalculateAnimationLength` stores `Math.max` of a possibly empty list
(`⊥` = `-Infinity`).  `loopTimestamp` and `pausedAtTime` start as `null`
(`none`).  The scheduling fields (`_loopId`, `_scheduleUpdate`,
`_cancelUpdate`) and the listener registry are external and not part of the
modelled state; event firing is reported as a list of event names. -/
structure Kapi where
  actors : List (ℕ × Actor) := []
  drawOrder : List ℕ := []
  playState : PlayState := .STOPPED
  timesToIterate : ℤ := -1
  animationLength : WithBot ℤ := (0 : ℤ)
  loopTimestamp : Option ℤ := none
  pausedAtTime : Option ℤ := none
  lastRenderedMillisecond : ℤ := 0
deriving DecidableEq, Repr

/-- A freshly constructed `new Kapi()`. -/
def kapiInit : Kapi := {}

/-- `Kapi.prototype._recalculateAnimationLength`: collect every attached
actor's `getEnd()` and store `Math.max` of the collection. -/
def Kapi.recalculateAnimationLength (k : Kapi) : Kapi :=
  { k with animationLength := mathMax (k.actors.map (fun p => p.2.getEnd)) }

/-- `Kapi.prototype.addActor(actor)`: no-op when the actor is already
attached; otherwise store it in the id map and append it to the draw
order.  (Setting `actor.kapi`, `actor.fps`, the context, and calling
`setup()` touch no modelled state.)  Note that the animation length is not
recomputed. -/
def Kapi.addActorK (k : Kapi) (aid : ℕ) (a : Actor) : Kapi :=
  if (k.actors.lookup aid).isSome then k
  else { k with actors := k.actors ++ [(aid, a)], drawOrder := k.drawOrder ++ [aid] }

/-- `Kapi.prototype.removeActor(actor)`: drop the actor from the id map and
the draw order (clearing its `kapi` back-reference), then recompute the
animation length.  Also returns the removed actor (now detached). -/
def Kapi.removeActorK (k : Kapi) (aid : ℕ) : Kapi × Option Actor :=
  let removed := k.actors.lookup aid
  let k := { k with
    actors := k.actors.filter (fun p => ¬ p.1 = aid)
    drawOrder := k.drawOrder.filter (fun i => ¬ i = aid) }
  (k.recalculateAnimationLength, removed)

/-- Apply `f` to the actor stored under `aid` (JS mutates the shared actor
object in place; the id map sees the update immediately). -/
def Kapi.updateActor (k : Kapi) (aid : ℕ) (f : Actor → Actor) : Kapi :=
  { k with actors := k.actors.map (fun p => if p.1 = aid then (p.1, f p.2) else p) }

/-- `Actor.prototype.keyframe` called on an actor attached to engine `k`:
run the per-position loop, then `this.kapi._recalculateAnimationLength()`,
then `this.invalidatePropertyCache()`. -/
def Kapi.actorKeyframe (k : Kapi) (aid : ℕ) (when : ℤ) (position : List (String × ℚ))
    (optEasing : Option EasingArg) : Kapi :=
  (((k.updateActor aid (fun a => a.keyframeLoop when position optEasing)
      ).recalculateAnimationLength
     ).updateActor aid Actor.invalidatePropertyCache)

/-- `Actor.prototype.removeKeyframe` on an attached actor: per-track splice
loop, then engine length recompute, then cache rebuild. -/
def Kapi.actorRemoveKeyframe (k : Kapi) (aid : ℕ) (when : ℤ) : Kapi :=
  (((k.updateActor aid (fun a => a.removeKeyframeLoop when)
      ).recalculateAnimationLength
     ).updateActor aid Actor.invalidatePropertyCache)

/-- `Actor.prototype.modifyKeyframeProperty` on an attached actor: the
actor-local operation only — it never calls into the engine. -/
def Kapi.actorModifyKeyframeProperty (k : Kapi) (aid : ℕ) (property : String) (index : ℕ)
    (patch : KeyframePropertyPatch) : Kapi :=
  k.updateActor aid (fun a => a.modifyKeyframePropertyCore property index patch)

/-! ### Playback state machine -/

/-- `Kapi.prototype.play(opt_howManyTimes)` at wall-clock time `now`.
Cancelling the pending tick and scheduling the next one are external.
Resuming from `PAUSED` advances the loop timestamp by the paused interval
(`this._loopTimestamp += now() - this._pausedAtTime`, with JS coercing a
`null` operand to 0); any other state resets it to `now`.  The loop target
is `opt_howManyTimes || -1` (a falsy 0 also becomes `-1`).  Fires
`onPlayStateChange` then `onPlay`. -/
def Kapi.play (k : Kapi) (now : ℤ) (optHowManyTimes : Option ℤ) : Kapi × List String :=
  let loopTs : ℤ :=
    if k.playState = .PAUSED then k.loopTimestamp.getD 0 + (now - k.pausedAtTime.getD 0)
    else now
  let times : ℤ :=
    match optHowManyTimes with
    | none => -1
    | some t => if t = 0 then -1 else t
  ({ k with loopTimestamp := some loopTs, timesToIterate := times, playState := .PLAYING },
   ["onPlayStateChange", "onPlay"])

/-- `Kapi.prototype.pause()` at wall-clock time `now`: a full no-op when
already `PAUSED`; otherwise record the pause timestamp, enter `PAUSED`,
and fire `onPlayStateChange` then `onPause`.  (Pausing in-flight Shifty
tweens is external.) -/
def Kapi.pause (k : Kapi) (now : ℤ) : Kapi × List String :=
  if k.playState = .PAUSED then (k, [])
  else ({ k with playState := .PAUSED, pausedAtTime := some now },
        ["onPlayStateChange", "onPause"])

/-- `Kapi.prototype.stop()`: enter `STOPPED` and fire `onPlayStateChange`
then `onStop`.  (Killing Shifty tweens is external.) -/
def Kapi.stop (k : Kapi) : Kapi × List String :=
  ({ k with playState := .STOPPED }, ["onPlayStateChange", "onStop"])

/-- `calculateTimeSinceStart(kapi)` evaluated at wall-clock time `now`
(`now() - kapi._loopTimestamp`, JS coercing a `null` timestamp to 0). -/
def calculateTimeSinceStart (k : Kapi) (now : ℤ) : ℤ :=
  now - k.loopTimestamp.getD 0

/-! ### Tick / render pipeline -/

/-- The stored animation length read as a number by the tick arithmetic.
The playback theorems require a finite positive length (the `⊥` /
`-Infinity` and 0 cases make the JS arithmetic produce non-finite values,
outside the fragment modelled here); `unbot' 0` merely totalizes. -/
def Kapi.animationLengthNum (k : Kapi) : ℤ :=
  k.animationLength.unbot' 0

/-- `Math.floor(a / b)` on JS numbers, for finite `a` and nonzero `b`:
rational division followed by floor. -/
def jsMathFloorDiv (a b : ℤ) : ℤ :=
  ⌊(a : ℚ) / (b : ℚ)⌋

/-- The JS remainder `a % b` (truncated remainder, sign of the dividend). -/
def jsRem (a b : ℤ) : ℤ :=
  Int.tmod a b

/-- `determineCurrentLoopIteration(kapi, timeSinceStart)`:
`Math.floor(timeSinceStart / kapi._animationLength)`. -/
def determineCurrentLoopIteration (k : Kapi) (timeSinceStart : ℤ) : ℤ :=
  jsMathFloorDiv timeSinceStart k.animationLengthNum

/-- `isAnimationComplete(kapi, currentLoopIteration)`:
`currentLoopIteration >= kapi._timesToIterate && kapi._timesToIterate !== -1`. -/
def isAnimationComplete (k : Kapi) (currentLoopIteration : ℤ) : Prop :=
  currentLoopIteration ≥ k.timesToIterate ∧ k.timesToIterate ≠ -1

instance (k : Kapi) (i : ℤ) : Decidable (isAnimationComplete k i) :=
  inferInstanceAs (Decidable (And _ _))

/-- `calculateLoopPosition(kapi, forMillisecond, currentLoopIteration)`:
the full length when complete, else `forMillisecond % length`. -/
def calculateLoopPosition (k : Kapi) (forMillisecond currentLoopIteration : ℤ) : ℤ :=
  if isAnimationComplete k currentLoopIteration then k.animationLengthNum
  else jsRem forMillisecond k.animationLengthNum

/-- `updatePlayState(kapi, currentLoopIteration)`: when complete, `stop()`
and fire `onAnimationComplete`. -/
def updatePlayState (k : Kapi) (currentLoopIteration : ℤ) : Kapi × List String :=
  if isAnimationComplete k currentLoopIteration then
    let s := k.stop
    (s.1, s.2 ++ ["onAnimationComplete"])
  else (k, [])

/-- `Kapi.prototype.calculateActorPositions(millisecond)`: walk the draw
order and let each actor compute its position. -/
def Kapi.calculateActorPositions (interp : Interp) (k : Kapi) (millisecond : ℤ) : Kapi :=
  k.drawOrder.foldl (fun k aid => k.updateActor aid (fun a => a.calculatePosition interp millisecond)) k

/-- `Kapi.prototype.render(millisecond)`: recompute actor positions, draw
(`draw` fires `onBeforeDraw` and dispatches the external per-actor render
callbacks), record the position, and fire `onFrameRender`. -/
def Kapi.render (interp : Interp) (k : Kapi) (millisecond : ℤ) : Kapi × List String :=
  let k := k.calculateActorPositions interp millisecond
  ({ k with lastRenderedMillisecond := millisecond }, ["onBeforeDraw", "onFrameRender"])

/-- `renderMillisecond(kapi, forMillisecond)`: compute the loop iteration
and position, render there, then update the play state. -/
def renderMillisecond (interp : Interp) (k : Kapi) (forMillisecond : ℤ) : Kapi × List String :=
  let currentIteration := determineCurrentLoopIteration k forMillisecond
  let loopPosition := calculateLoopPosition k forMillisecond currentIteration
  let r := k.render interp loopPosition
  let u := updatePlayState r.1 currentIteration
  (u.1, r.2 ++ u.2)

/-! ### Operations and the world of one engine plus detached actors -/

/-- The keyframe-mutating methods of `Actor.prototype` covered by the
track-sortedness and error-behavior claims. -/
inductive ActorOp where
  | keyframe (when : ℤ) (position : List (String × ℚ)) (optEasing : Option EasingArg)
  | removeKeyframe (when : ℤ)
  | modifyKeyframeProperty (property : String) (index : ℕ) (patch : KeyframePropertyPatch)
deriving DecidableEq, Repr

/-- Dispatch an `ActorOp` on an actor attached to engine `k`. -/
def Kapi.runActorOp (k : Kapi) (aid : ℕ) (op : ActorOp) : Kapi :=
  match op with
  | .keyframe when_ position optEasing => k.actorKeyframe aid when_ position optEasing
  | .removeKeyframe when_ => k.actorRemoveKeyframe aid when_
  | .modifyKeyframeProperty property index patch =>
      k.actorModifyKeyframeProperty aid property index patch

/-- A world holding the one modelled engine plus the actors that currently
exist detached from it (their `kapi` back-reference is `undefined`). -/
structure World where
  kapi : Kapi := {}
  freeActors : List (ℕ × Actor) := []
deriving DecidableEq, Repr

/-- The engine- and actor-level API calls covered by the safety claim. -/
inductive WorldOp where
  | addActor (aid : ℕ)
  | removeActor (aid : ℕ)
  | actorOp (aid : ℕ) (op : ActorOp)
  | calculatePosition (aid : ℕ) (millisecond : ℤ)
  | play (now : ℤ) (optHowManyTimes : Option ℤ)
  | pause (now : ℤ)
  | stop
deriving DecidableEq, Repr

/-- `Actor.prototype.keyframe` / `removeKeyframe` invoked on a detached
actor reach `this.kapi._recalculateAnimationLength()` with `this.kapi`
`undefined` and raise a `TypeError` (in JS the in-place track mutation has
already happened when the exception propagates). -/
def detachedKapiError : String :=
  "TypeError: cannot call _recalculateAnimationLength of undefined"

/-- Run one API call on the world.  An actor call dispatches on where the
actor lives: attached actors get the engine-notifying semantics; detached
actors run `modifyKeyframeProperty` (which never touches `this.kapi`)
locally but raise on `keyframe`/`removeKeyframe`.  Calls that name no
existing actor have no callee and are modelled as no-ops. -/
def World.runOp (interp : Interp) (w : World) (op : WorldOp) : Except String World :=
  match op with
  | .addActor aid =>
    match w.freeActors.lookup aid with
    | some a => .ok { kapi := w.kapi.addActorK aid a,
                      freeActors := w.freeActors.filter (fun p => ¬ p.1 = aid) }
    | none => .ok w
  | .removeActor aid =>
    let r := w.kapi.removeActorK aid
    .ok { kapi := r.1,
          freeActors :=
            match r.2 with
            | some a => w.freeActors ++ [(aid, a)]
            | none => w.freeActors }
  | .actorOp aid op =>
    if (w.kapi.actors.lookup aid).isSome then
      .ok { w with kapi := w.kapi.runActorOp aid op }
    else
      match w.freeActors.lookup aid with
      | some a =>
        match op with
        | .keyframe _ _ _ => .error detachedKapiError
        | .removeKeyframe _ => .error detachedKapiError
        | .modifyKeyframeProperty property index patch =>
          .ok { w with freeActors := w.freeActors.map (fun p =>
            if p.1 = aid then (p.1, a.modifyKeyframePropertyCore property index patch) else p) }
      | none => .ok w
  | .calculatePosition aid millisecond =>
    if (w.kapi.actors.lookup aid).isSome then
      .ok { w with kapi := w.kapi.updateActor aid (fun a => a.calculatePosition interp millisecond) }
    else
      .ok { w with freeActors := w.freeActors.map (fun p =>
        if p.1 = aid then (p.1, p.2.calculatePosition interp millisecond) else p) }
  | .play now optHowManyTimes => .ok { w with kapi := (w.kapi.play now optHowManyTimes).1 }
  | .pause now => .ok { w with kapi := (w.kapi.pause now).1 }
  | .stop => .ok { w with kapi := w.kapi.stop.1 }

/-- The exact situations in which a modelled API call raises:
`keyframe`/`removeKeyframe` on an actor that exists detached (and is not
attached under the same id). -/
def raisesOn (w : World) (op : WorldOp) : Bool :=
  match op with
  | .actorOp aid (.keyframe _ _ _) =>
    (w.kapi.actors.lookup aid).isNone && (w.freeActors.lookup aid).isSome
  | .actorOp aid (.removeKeyframe _) =>
    (w.kapi.actors.lookup aid).isNone && (w.freeActors.lookup aid).isSome
  | _ => false

/-- Whether a world-operation result is an exception. -/
def isError (r : Except String World) : Bool :=
  match r with
  | .error _ => true
  | .ok _ => false

/-! ### Playback-only operations (for the play-state claims) -/

/-- One call in a sequence of `play()` / `pause()` / `stop()` invocations,
with the wall-clock time at which it happens. -/
inductive PlaybackOp where
  | play (now : ℤ) (optHowManyTimes : Option ℤ)
  | pause (now : ℤ)
  | stop
deriving DecidableEq, Repr

/-- Whether a playback call is `pause()`. -/
def PlaybackOp.isPause : PlaybackOp → Bool
  | .pause _ => true
  | _ => false

/-- Dispatch a playback call on the engine. -/
def Kapi.runPlaybackOp (k : Kapi) (op : PlaybackOp) : Kapi × List String :=
  match op with
  | .play now t => k.play now t
  | .pause now => k.pause now
  | .stop => k.stop

/-! ### Sortedness predicates -/

/-- One track is ascending by millisecond (non-strict: several keyframes at
the same millisecond are allowed by `keyframe`). -/
def trackSortedByMs (t : List KeyframeProperty) : Prop :=
  t.Pairwise (fun x y => x.millisecond ≤ y.millisecond)

/-- All of an actor's property tracks are sorted. -/
def actorTracksSorted (a : Actor) : Prop :=
  ∀ p ∈ a.propertyTracks, trackSortedByMs p.2

/-- All tracks of all attached actors are sorted. -/
def kapiTracksSorted (k : Kapi) : Prop :=
  ∀ p ∈ k.actors, actorTracksSorted p.2

/-! ### Concrete states used by counterexamples and witnesses -/

/-- A degenerate interpolation collaborator, used only to instantiate the
`interp` parameter of theorems at concrete inputs (none of those inputs
ever reach an interpolation call). -/
def interpZero : Interp := fun _ _ _ _ _ => 0

/-- An engine with one actor keyframed on track `"x"` at milliseconds 0 and
10, built through the real API calls. -/
def kapiTwoKf : Kapi :=
  ((kapiInit.addActorK 0 actorInit).actorKeyframe 0 0 [("x", 0)] none
    ).actorKeyframe 0 10 [("x", 1)] none

/-- The actor of `kapiTwoKf` (cache index `[0, 10]`). -/
def actorTwoKf : Actor := (kapiTwoKf.actors.lookup 0).getD actorInit

/-- `kapiTwoKf` after `modifyKeyframeProperty("x", 1, {millisecond: 200})`,
which moves the last keyframe without any engine-length recompute. -/
def kapiStale : Kapi :=
  kapiTwoKf.actorModifyKeyframeProperty 0 "x" 1 { millisecond := some 200 }

/-- An actor keyframed (while attached) at millisecond 50 and then removed
from its engine: a detached actor carrying keyframes. -/
def removedActor : Actor :=
  (((kapiInit.addActorK 0 actorInit).actorKeyframe 0 50 [("x", 1)] none
    ).removeActorK 0).2.getD actorInit

/-- An engine with one actor holding a single keyframe at millisecond 5
(a one-bucket cache index `[5]`). -/
def kapiOneKf : Kapi :=
  (kapiInit.addActorK 0 actorInit).actorKeyframe 0 5 [("x", 1)] none

/-- The actor of `kapiOneKf`. -/
def actorOneKf : Actor := (kapiOneKf.actors.lookup 0).getD actorInit

/-- A playing engine with animation length 10 and loop target 2,
used to instantiate the tick-pipeline theorem. -/
def kapiPlaying : Kapi :=
  { playState := .PLAYING, timesToIterate := 2, animationLength := (10 : ℤ),
    loopTimestamp := some 0 }

/-! ## Helper lemmas -/

theorem invalidate_propertyTracks (a : Actor) :
    (a.invalidatePropertyCache).propertyTracks = a.propertyTracks := rfl

theorem getEnd_invalidate (a : Actor) :
    (a.invalidatePropertyCache).getEnd = a.getEnd := rfl

theorem updateActor_map_getEnd (k : Kapi) (aid : ℕ) (f : Actor → Actor)
    (hf : ∀ a, (f a).getEnd = a.getEnd) :
    (k.updateActor aid f).actors.map (fun p => p.2.getEnd)
      = k.actors.map (fun p => p.2.getEnd) := by
  show (k.actors.map _).map _ = _
  rw [List.map_map]
  refine List.map_congr_left (fun p _ => ?_)
  by_cases h : p.1 = aid <;> simp [h, hf]

/-! ## C1 -/

/-- C1: amended.  The engine length is recomputed from all attached actors'
`getEnd()` by `removeActor`, `Actor.keyframe`, and `Actor.removeKeyframe`
(each of which ends by storing `Math.max` of the ends: `⊥` = `-Infinity`
when no actor remains); `addActor` and `modifyKeyframeProperty` are NOT
covered — they never recompute the length and can leave it stale. -/
theorem C1_length_recomputed_by_mutators (k : Kapi) (aid : ℕ) (when₁ : ℤ)
    (position : List (String × ℚ)) (optEasing : Option EasingArg) (when₂ : ℤ) :
    ((k.actorKeyframe aid when₁ position optEasing).animationLength
      = mathMax ((k.actorKeyframe aid when₁ position optEasing).actors.map (fun p => p.2.getEnd)))
  ∧ ((k.actorRemoveKeyframe aid when₂).animationLength
      = mathMax ((k.actorRemoveKeyframe aid when₂).actors.map (fun p => p.2.getEnd)))
  ∧ ((k.removeActorK aid).1.animationLength
      = mathMax ((k.removeActorK aid).1.actors.map (fun p => p.2.getEnd))) := by
  refine ⟨?_, ?_, rfl⟩
  · unfold Kapi.actorKeyframe
    rw [updateActor_map_getEnd _ _ _ getEnd_invalidate]
    rfl
  · unfold Kapi.actorRemoveKeyframe
    rw [updateActor_map_getEnd _ _ _ getEnd_invalidate]
    rfl

/-- C1: counterexample.  (1) `modifyKeyframeProperty` moving the last
keyframe from 10 to 200 leaves the stored length at 10 while the maximal
actor end is 200; (2) `addActor` attaching a previously keyframed,
detached actor (end 50) leaves the fresh engine's length at its initial 0. -/
theorem C1_cex_stale_length :
    (kapiStale.animationLength
      ≠ mathMax (kapiStale.actors.map (fun p => p.2.getEnd)))
  ∧ ((kapiInit.addActorK 1 removedActor).animationLength
      ≠ mathMax ((kapiInit.addActorK 1 removedActor).actors.map (fun p => p.2.getEnd))) := by
  decide

/-! ## C2 -/

/-- C2: confirmed.  `getValueAt` with no linked successor returns the
property's own value unchanged; with successor `s` it returns the external
interpolation of `p.value` toward `s.value` at fraction
`(m - p.millisecond) / (s.millisecond - p.millisecond)`, driven by the
successor's easing specification `s.easing` (not `p`'s own). -/
theorem C2_getValueAt_spec (interp : Interp) (p s : KeyframeProperty) (m : ℤ) :
    KeyframeProperty.getValueAt interp p none m = p.value
  ∧ KeyframeProperty.getValueAt interp p (some s) m =
      interp [(p.name, p.value)] [(p.name, s.value)]
        (((m : ℚ) - (p.millisecond : ℚ)) / ((s.millisecond : ℚ) - (p.millisecond : ℚ)))
        s.easing p.name := by
  refine ⟨rfl, ?_⟩
  show interp _ _ _ _ _ = _
  norm_cast

/-! ## C5 -/

/-- C5: amended.  Every recomputation stores `Math.max` over the attached
actors' `getEnd()`; with no actors that maximum is `-Infinity` (`⊥`), not
the claimed default 0 (0 is only the initial value set at construction),
so removing the last actor leaves the length `-Infinity`. -/
theorem C5_recalculate_spec (k : Kapi) :
    ((k.recalculateAnimationLength).animationLength
      = mathMax ((k.recalculateAnimationLength).actors.map (fun p => p.2.getEnd)))
  ∧ (k.actors = [] → (k.recalculateAnimationLength).animationLength = (⊥ : WithBot ℤ))
  ∧ kapiInit.animationLength = ((0 : ℤ) : WithBot ℤ) := by
  refine ⟨rfl, ?_, rfl⟩
  intro h
  simp [Kapi.recalculateAnimationLength, h, mathMax]

/-- C5: witness for the amended theorem's empty-engine hypothesis. -/
theorem C5_witness : (kapiInit.recalculateAnimationLength).animationLength = (⊥ : WithBot ℤ) :=
  (C5_recalculate_spec kapiInit).2.1 rfl

/-- C5: counterexample.  Removing the only actor leaves the stored length
`-Infinity` (`⊥`), not 0. -/
theorem C5_cex_remove_last_actor :
    ((kapiInit.addActorK 0 actorInit).removeActorK 0).1.animationLength = (⊥ : WithBot ℤ)
  ∧ ((kapiInit.addActorK 0 actorInit).removeActorK 0).1.animationLength
      ≠ ((0 : ℤ) : WithBot ℤ) := by
  decide

/-! ## C7 -/

/-- C7: confirmed.  `play()` called while `PAUSED` advances the stored
loop-start timestamp by exactly the paused interval (`now` minus the
recorded pause timestamp), so subsequent elapsed time equals the elapsed
time at the pause plus the time since resuming (the pause is excluded and
playback resumes from the paused position); from any other state the
loop-start timestamp is reset to `now`. -/
theorem C7_play_resume (k : Kapi) (now : ℤ) (t : Option ℤ) :
    ((k.play now t).1.loopTimestamp =
      some (if k.playState = .PAUSED
            then k.loopTimestamp.getD 0 + (now - k.pausedAtTime.getD 0)
            else now))
  ∧ ∀ u : ℤ, calculateTimeSinceStart (k.play now t).1 u =
      if k.playState = .PAUSED
      then (k.pausedAtTime.getD 0 - k.loopTimestamp.getD 0) + (u - now)
      else u - now := by
  refine ⟨rfl, fun u => ?_⟩
  show u - (Option.getD (some _) 0) = _
  by_cases h : k.playState = .PAUSED
  · simp [h]
    ring
  · simp [h]

/-! ## C8 -/

/-- C8: confirmed.  For a millisecond strictly outside
`[getStart(), getEnd()]`, `calculatePosition` leaves the actor (including
its live value map) entirely unchanged. -/
theorem C8_calculatePosition_outside (interp : Interp) (a : Actor) (m : ℤ)
    (h : ¬ (a.getStart ≤ m ∧ m ≤ a.getEnd)) :
    a.calculatePosition interp m = a := by
  unfold Actor.calculatePosition
  exact if_neg h

/-- C8: witness at a concrete actor (keyframes at 0 and 10) queried at 11. -/
theorem C8_witness :
    actorTwoKf.calculatePosition interpZero 11 = actorTwoKf
  ∧ ¬ (actorTwoKf.getStart ≤ 11 ∧ (11 : ℤ) ≤ actorTwoKf.getEnd) :=
  ⟨C8_calculatePosition_outside interpZero actorTwoKf 11 (by decide), by decide⟩

/-! ## C10 -/

/-- C10: counterexample.  From the initial `STOPPED` state, the single-call
sequence `pause()` moves the engine directly to `PAUSED` without ever
being in `PLAYING`. -/
theorem C10_cex_pause_from_stopped :
    kapiInit.playState = PlayState.STOPPED
  ∧ (kapiInit.pause 5).1.playState = PlayState.PAUSED := ⟨rfl, rfl⟩

/-- C10: amended.  `PAUSED` is entered exactly by `pause()`, but from any
state — including directly from `STOPPED` (the code only guards against
pausing twice): after any `play`/`pause`/`stop` call the state is `PAUSED`
if and only if that call was `pause()`. -/
theorem C10_paused_iff_pause (k : Kapi) (op : PlaybackOp) :
    (k.runPlaybackOp op).1.playState = PlayState.PAUSED ↔ op.isPause = true := by
  cases op with
  | play now t => simp [Kapi.runPlaybackOp, Kapi.play, PlaybackOp.isPause]
  | pause now =>
    by_cases h : k.playState = .PAUSED <;>
      simp [Kapi.runPlaybackOp, Kapi.pause, PlaybackOp.isPause, h]
  | stop => simp [Kapi.runPlaybackOp, Kapi.stop, PlaybackOp.isPause]

/-! ## C3 -/

theorem cacheIdSearch_characterization (m : ℤ) :
    ∀ (l : List ℤ) (i : ℕ),
      cacheIdSearch m l i =
        match l.findIdx? (fun x => decide (m ≤ x)) i with
        | some j => (j : ℤ) - 1
        | none => -1 := by
  intro l
  induction l with
  | nil => intro i; rfl
  | cons x rest ih =>
    intro i
    unfold cacheIdSearch
    rw [List.findIdx?_cons]
    by_cases hx : x ≥ m
    · have hx' : decide (m ≤ x) = true := by simpa using hx
      rw [if_pos hx, hx', if_pos rfl]
    · have hx' : decide (m ≤ x) = false := by simpa using hx
      rw [if_neg hx, hx', if_neg Bool.false_ne_true, ih (i + 1)]

/-- C3: amended.  The cache-index lookup returns one less than the first
position `≥ 1` whose key is `≥ m`, and returns `-1` exactly when every key
at positions `≥ 1` is `< m` — NOT "the greatest index with key `≤ m`": at
`m` equal to a key at a position `≥ 1` it returns the preceding position,
and a single-entry index returns `-1` even when its key is `≤ m` (so `-1`
can occur with `m` inside `[getStart(), getEnd()]`).  Whenever the lookup
yields `-1` for an in-range `m`, `calculatePosition` assembles an empty
interpolation map: no per-property update is produced (the empty object is
handed to `this.set`). -/
theorem C3_cacheId_lookup_spec (a : Actor) (m : ℤ) (interp : Interp) :
    (getPropertyCacheIdForMillisecond a m =
      match (a.timelinePropertyCacheIndex.drop 1).findIdx? (fun x => decide (m ≤ x)) 1 with
      | some j => (j : ℤ) - 1
      | none => -1)
  ∧ (getPropertyCacheIdForMillisecond a m = -1 ↔
      ∀ x ∈ a.timelinePropertyCacheIndex.drop 1, x < m)
  ∧ (getPropertyCacheIdForMillisecond a m = -1 → a.getStart ≤ m → m ≤ a.getEnd →
      (a.calculatePosition interp m).live = []) := by
  have hchar : getPropertyCacheIdForMillisecond a m =
      match (a.timelinePropertyCacheIndex.drop 1).findIdx? (fun x => decide (m ≤ x)) 1 with
      | some j => (j : ℤ) - 1
      | none => -1 := by
    unfold getPropertyCacheIdForMillisecond
    rcases hidx : a.timelinePropertyCacheIndex with _ | ⟨x, tail⟩
    · rfl
    · show cacheIdSearch m tail 1 =
        match ((x :: tail).drop 1).findIdx? (fun x => decide (m ≤ x)) 1 with
        | some j => (j : ℤ) - 1
        | none => -1
      rw [cacheIdSearch_characterization m tail 1, List.drop_succ_cons, List.drop_zero]
  refine ⟨hchar, ?_, ?_⟩
  · rw [hchar, List.findIdx?_start_succ]
    cases h : (a.timelinePropertyCacheIndex.drop 1).findIdx? (fun x => decide (m ≤ x)) 0 with
    | none =>
      refine ⟨fun _ x hx => ?_, fun _ => rfl⟩
      have h0 : (a.timelinePropertyCacheIndex.drop 1).findIdx? (fun x => decide (m ≤ x)) = none := h
      have := List.findIdx?_eq_none_iff.mp h0 x hx
      simpa using this
    | some j =>
      constructor
      · intro hj
        have : ((j + (0 + 1) : ℕ) : ℤ) - 1 = -1 := hj
        omega
      · intro hall
        exfalso
        have h0 : (a.timelinePropertyCacheIndex.drop 1).findIdx? (fun x => decide (m ≤ x)) = some j := h
        obtain ⟨hlt, hp, -⟩ := List.findIdx?_eq_some_iff_getElem.mp h0
        have hmem : (a.timelinePropertyCacheIndex.drop 1)[j] ∈ a.timelinePropertyCacheIndex.drop 1 :=
          List.getElem_mem hlt
        have hxlt := hall _ hmem
        simp only [decide_eq_true_eq] at hp
        omega
  · intro hneg hs he
    unfold Actor.calculatePosition
    rw [if_pos ⟨hs, he⟩]
    simp only [hneg]
    have hji : jsIndex a.timelinePropertyCacheIndex (-1) = none := by
      unfold jsIndex
      norm_num
    rw [hji]
    rfl

/-- C3: witness for the amended theorem's `-1`-inside-the-range clause:
a single-keyframe actor (cache index `[5]`) queried at its own start/end
millisecond 5 gets lookup result `-1` and an empty interpolation map. -/
theorem C3_witness :
    (actorOneKf.calculatePosition interpZero 5).live = [] :=
  (C3_cacheId_lookup_spec actorOneKf 5 interpZero).2.2 (by decide) (by decide) (by decide)

/-- C3: counterexample.  For the actor with cache index `[0, 10]` and
`m = 10` (which lies inside `[getStart(), getEnd()]`), the greatest index
whose key is `≤ 10` is 1 (the key 10 itself), but the lookup returns 0. -/
theorem C3_cex_not_greatest_le :
    actorTwoKf.timelinePropertyCacheIndex = [0, 10]
  ∧ actorTwoKf.getStart ≤ 10 ∧ (10 : ℤ) ≤ actorTwoKf.getEnd
  ∧ getPropertyCacheIdForMillisecond actorTwoKf 10 = 0 := by
  decide

/-! ## C9 -/

/-- C9: counterexample.  `Actor.keyframe` called on a detached actor (one
that exists but is attached to no engine) dereferences the `undefined`
`this.kapi` back-reference and raises, contradicting "never raises an
exception ... attached to an engine or not". -/
theorem C9_cex_detached_keyframe_raises :
    isError (World.runOp interpZero { freeActors := [(0, actorInit)] }
      (.actorOp 0 (.keyframe 0 [("x", 1)] none))) = true := rfl

/-- C9: amended.  Among the modelled engine and actor operations, a call
raises an exception exactly when it is `Actor.keyframe` or
`Actor.removeKeyframe` invoked on a detached actor (whose engine
back-reference is `undefined`); every other call — including
`modifyKeyframeProperty` on a detached actor, operations naming a
nonexistent actor, and all operations on attached actors — completes or
degrades to a no-op. -/
theorem C9_error_iff_detached_mutation (interp : Interp) (w : World) (op : WorldOp) :
    isError (World.runOp interp w op) = raisesOn w op := by
  cases op with
  | addActor aid =>
    show isError (match w.freeActors.lookup aid with | some a => _ | none => _) = false
    cases w.freeActors.lookup aid <;> rfl
  | removeActor aid => rfl
  | actorOp aid aop =>
    show isError
        (if (w.kapi.actors.lookup aid).isSome then _
         else match w.freeActors.lookup aid with | some a => _ | none => _) = _
    cases hlook : w.kapi.actors.lookup aid with
    | some a0 =>
      rw [if_pos (by simp [hlook])]
      cases aop <;> simp [raisesOn, isError, hlook]
    | none =>
      rw [if_neg (by simp [hlook])]
      cases h2 : w.freeActors.lookup aid with
      | none => cases aop <;> simp [raisesOn, isError, hlook, h2]
      | some a => cases aop <;> simp [raisesOn, isError, hlook, h2]
  | calculatePosition aid ms =>
    show isError (if (w.kapi.actors.lookup aid).isSome then _ else _) = false
    by_cases h1 : (w.kapi.actors.lookup aid).isSome
    · rw [if_pos h1]
      rfl
    · rw [if_neg h1]
      rfl
  | play now t => rfl
  | pause now => rfl
  | stop => rfl

/-! ## C4 -/

theorem foldl_updateActor_fields (g : ℕ → Actor → Actor) :
    ∀ (l : List ℕ) (k : Kapi),
      ((l.foldl (fun k aid => k.updateActor aid (g aid)) k).playState = k.playState)
    ∧ ((l.foldl (fun k aid => k.updateActor aid (g aid)) k).timesToIterate = k.timesToIterate)
    ∧ ((l.foldl (fun k aid => k.updateActor aid (g aid)) k).animationLength = k.animationLength) := by
  intro l
  induction l with
  | nil => exact fun k => ⟨rfl, rfl, rfl⟩
  | cons aid rest ih =>
    intro k
    exact ih (k.updateActor aid (g aid))

theorem jsMathFloorDiv_eq_ediv (a b : ℤ) (hb : 0 < b) : jsMathFloorDiv a b = a / b := by
  obtain ⟨n, rfl⟩ : ∃ n : ℕ, b = n := ⟨b.toNat, (Int.toNat_of_nonneg hb.le).symm⟩
  have h := Rat.floor_intCast_div_natCast a n
  unfold jsMathFloorDiv
  push_cast at h ⊢
  exact h

/-- C4: confirmed (for a finite positive animation length and nonnegative
elapsed time, the fragment where the JS arithmetic is finite).  A tick
rendering elapsed time `e` on an engine with length `L` and loop target
`n`: when `⌊e / L⌋ ≥ n` and `n ≠ -1`, the rendered position is `L`, the
engine ends `STOPPED`, and `onAnimationComplete` fires; otherwise the
rendered position is `e mod L`, the play state is untouched, and
`onAnimationComplete` does not fire. -/
theorem C4_renderMillisecond_spec (interp : Interp) (k : Kapi) (e L : ℤ)
    (hL : k.animationLength = (L : WithBot ℤ)) (hLpos : 0 < L) (he : 0 ≤ e) :
    ((k.timesToIterate ≤ ⌊(e : ℚ) / (L : ℚ)⌋ ∧ k.timesToIterate ≠ -1) →
        ((renderMillisecond interp k e).1.lastRenderedMillisecond = L
      ∧ (renderMillisecond interp k e).1.playState = PlayState.STOPPED
      ∧ "onAnimationComplete" ∈ (renderMillisecond interp k e).2))
  ∧ (¬ (k.timesToIterate ≤ ⌊(e : ℚ) / (L : ℚ)⌋ ∧ k.timesToIterate ≠ -1) →
        ((renderMillisecond interp k e).1.lastRenderedMillisecond = e % L
      ∧ (renderMillisecond interp k e).1.playState = k.playState
      ∧ "onAnimationComplete" ∉ (renderMillisecond interp k e).2)) := by
  have hnum : k.animationLengthNum = L := by
    unfold Kapi.animationLengthNum
    rw [hL]
    rfl
  have hit : determineCurrentLoopIteration k e = ⌊(e : ℚ) / (L : ℚ)⌋ := by
    unfold determineCurrentLoopIteration jsMathFloorDiv
    rw [hnum]
  obtain ⟨hps, hti, hal⟩ :=
    foldl_updateActor_fields (fun _ a => a.calculatePosition interp
      (calculateLoopPosition k e (determineCurrentLoopIteration k e))) k.drawOrder k
  have hcomp : ∀ pos : ℤ,
      isAnimationComplete (k.calculateActorPositions interp pos) (determineCurrentLoopIteration k e)
        ↔ isAnimationComplete k (determineCurrentLoopIteration k e) := by
    intro pos
    unfold isAnimationComplete Kapi.calculateActorPositions
    rw [(foldl_updateActor_fields (fun _ a => a.calculatePosition interp pos) k.drawOrder k).2.1]
  constructor
  · intro hdone
    have hc : isAnimationComplete k (determineCurrentLoopIteration k e) := by
      unfold isAnimationComplete
      rw [hit]
      exact ⟨hdone.1, hdone.2⟩
    have hpos : calculateLoopPosition k e (determineCurrentLoopIteration k e) = L := by
      unfold calculateLoopPosition
      rw [if_pos hc, hnum]
    unfold renderMillisecond Kapi.render updatePlayState
    simp only [hpos]
    have hcren : isAnimationComplete
        ({ k.calculateActorPositions interp L with lastRenderedMillisecond := L })
        (determineCurrentLoopIteration k e) := by
      have := (hcomp L).mpr hc
      unfold isAnimationComplete at this ⊢
      exact this
    rw [if_pos hcren]
    refine ⟨rfl, rfl, ?_⟩
    simp [Kapi.stop]
  · intro hnotdone
    have hc : ¬ isAnimationComplete k (determineCurrentLoopIteration k e) := by
      unfold isAnimationComplete
      rw [hit]
      exact hnotdone
    have hpos : calculateLoopPosition k e (determineCurrentLoopIteration k e) = e % L := by
      unfold calculateLoopPosition
      rw [if_neg hc, hnum]
      unfold jsRem
      exact Int.tmod_eq_emod he hLpos.le
    unfold renderMillisecond Kapi.render updatePlayState
    simp only [hpos]
    have hcren : ¬ isAnimationComplete
        ({ k.calculateActorPositions interp (e % L) with lastRenderedMillisecond := e % L })
        (determineCurrentLoopIteration k e) := by
      intro hcon
      exact hc ((hcomp (e % L)).mp hcon)
    rw [if_neg hcren]
    refine ⟨rfl, ?_, ?_⟩
    · show (Kapi.calculateActorPositions interp k (e % L)).playState = k.playState
      unfold Kapi.calculateActorPositions
      exact (foldl_updateActor_fields (fun _ a => a.calculatePosition interp (e % L))
        k.drawOrder k).1
    · simp

/-- C4: witness.  On a playing engine with length 10 and loop target 2:
elapsed 25 (iteration 2) renders position 10, stops, and fires
`onAnimationComplete`; elapsed 5 renders `5 mod 10` and keeps playing. -/
theorem C4_witness :
    (renderMillisecond interpZero kapiPlaying 25).1.lastRenderedMillisecond = 10
  ∧ (renderMillisecond interpZero kapiPlaying 25).1.playState = PlayState.STOPPED
  ∧ "onAnimationComplete" ∈ (renderMillisecond interpZero kapiPlaying 25).2
  ∧ (renderMillisecond interpZero kapiPlaying 5).1.lastRenderedMillisecond = (5 : ℤ) % 10
  ∧ (renderMillisecond interpZero kapiPlaying 5).1.playState = kapiPlaying.playState
  ∧ "onAnimationComplete" ∉ (renderMillisecond interpZero kapiPlaying 5).2 := by
  have hf25 : ⌊(((25 : ℤ) : ℚ)) / (((10 : ℤ) : ℚ))⌋ = 2 := by
    rw [show ⌊(((25 : ℤ) : ℚ)) / (((10 : ℤ) : ℚ))⌋ = jsMathFloorDiv 25 10 from rfl,
        jsMathFloorDiv_eq_ediv 25 10 (by decide)]
    decide
  have hf5 : ⌊(((5 : ℤ) : ℚ)) / (((10 : ℤ) : ℚ))⌋ = 0 := by
    rw [show ⌊(((5 : ℤ) : ℚ)) / (((10 : ℤ) : ℚ))⌋ = jsMathFloorDiv 5 10 from rfl,
        jsMathFloorDiv_eq_ediv 5 10 (by decide)]
    decide
  have h1 := (C4_renderMillisecond_spec interpZero kapiPlaying 25 10 rfl (by decide) (by decide)).1
    (by rw [hf25]; exact ⟨by decide, by decide⟩)
  have h2 := (C4_renderMillisecond_spec interpZero kapiPlaying 5 10 rfl (by decide) (by decide)).2
    (by rw [hf5]; decide)
  exact ⟨h1.1, h1.2.1, h1.2.2, h2.1, h2.2.1, h2.2.2⟩

/-! ## C6 -/

theorem mem_insertKpAsc {kp x : KeyframeProperty} :
    ∀ {l : List KeyframeProperty}, x ∈ insertKpAsc kp l → x = kp ∨ x ∈ l := by
  intro l
  induction l with
  | nil =>
    intro h
    simp [insertKpAsc] at h
    exact Or.inl h
  | cons y rest ih =>
    intro h
    unfold insertKpAsc at h
    by_cases hy : y.millisecond ≤ kp.millisecond
    · rw [if_pos hy] at h
      rcases List.mem_cons.mp h with h | h
      · exact Or.inr (List.mem_cons.mpr (Or.inl h))
      · rcases ih h with h | h
        · exact Or.inl h
        · exact Or.inr (List.mem_cons.mpr (Or.inr h))
    · rw [if_neg hy] at h
      rcases List.mem_cons.mp h with h | h
      · exact Or.inl h
      · exact Or.inr h

theorem trackSortedByMs_insertKpAsc (kp : KeyframeProperty) :
    ∀ {l : List KeyframeProperty}, trackSortedByMs l → trackSortedByMs (insertKpAsc kp l) := by
  intro l
  induction l with
  | nil =>
    intro _
    exact List.pairwise_singleton _ _
  | cons y rest ih =>
    intro h
    obtain ⟨hyall, hrest⟩ := List.pairwise_cons.mp h
    unfold insertKpAsc
    by_cases hy : y.millisecond ≤ kp.millisecond
    · rw [if_pos hy]
      refine List.pairwise_cons.mpr ⟨?_, ih hrest⟩
      intro z hz
      rcases mem_insertKpAsc hz with rfl | hz
      · exact hy
      · exact hyall z hz
    · rw [if_neg hy]
      refine List.pairwise_cons.mpr ⟨?_, h⟩
      intro z hz
      rcases List.mem_cons.mp hz with rfl | hz
      · omega
      · exact le_of_lt (lt_of_lt_of_le (by omega) (hyall z hz))

theorem trackSortedByMs_sortTrack (t : List KeyframeProperty) :
    trackSortedByMs (sortTrack t) := by
  have hgen : ∀ (l acc : List KeyframeProperty), trackSortedByMs acc →
      trackSortedByMs (l.foldl (fun acc kp => insertKpAsc kp acc) acc) := by
    intro l
    induction l with
    | nil => exact fun acc h => h
    | cons kp rest ih =>
      intro acc h
      exact ih _ (trackSortedByMs_insertKpAsc kp h)
  exact hgen t [] List.Pairwise.nil

theorem actorTracksSorted_sortPropertyTracks (a : Actor) :
    actorTracksSorted (sortPropertyTracks a) := by
  intro p hp
  unfold sortPropertyTracks at hp
  simp only [List.mem_map] at hp
  obtain ⟨q, -, rfl⟩ := hp
  exact trackSortedByMs_sortTrack q.2

theorem actorTracksSorted_invalidate {a : Actor} (h : actorTracksSorted a) :
    actorTracksSorted (a.invalidatePropertyCache) := h

theorem removeFirstAt_sublist (when : ℤ) :
    ∀ t : List KeyframeProperty, List.Sublist (removeFirstAt when t) t := by
  intro t
  induction t with
  | nil => exact List.Sublist.refl []
  | cons kp rest ih =>
    unfold removeFirstAt
    by_cases h : when = kp.millisecond
    · rw [if_pos h]
      exact List.sublist_cons_self kp rest
    · rw [if_neg h]
      exact List.Sublist.cons₂ kp ih

theorem actorTracksSorted_removeKeyframeLoop {a : Actor} (h : actorTracksSorted a) (when : ℤ) :
    actorTracksSorted (a.removeKeyframeLoop when) := by
  intro p hp
  unfold Actor.removeKeyframeLoop at hp
  simp only [List.mem_map] at hp
  obtain ⟨q, hq, rfl⟩ := hp
  exact List.Pairwise.sublist (removeFirstAt_sublist when q.2) (h q hq)

theorem actorTracksSorted_keyframeLoop {a : Actor} (h : actorTracksSorted a)
    (when : ℤ) (position : List (String × ℚ)) (optEasing : Option EasingArg) :
    actorTracksSorted (a.keyframeLoop when position optEasing) := by
  unfold Actor.keyframeLoop
  have hgen : ∀ (l : List (String × ℚ)) (a0 : Actor), actorTracksSorted a0 →
      actorTracksSorted (l.foldl
        (fun acc nv =>
          sortPropertyTracks
            (pushToTrack { acc with propertyIdCounter := acc.propertyIdCounter + 1 } nv.1
              { id := acc.propertyIdCounter, millisecond := when, name := nv.1, value := nv.2,
                easing := effectiveEasing position optEasing nv.1 })) a0) := by
    intro l
    induction l with
    | nil => exact fun a0 h0 => h0
    | cons nv rest ih =>
      intro a0 _
      exact ih _ (actorTracksSorted_sortPropertyTracks _)
  exact hgen position a h

theorem actorTracksSorted_modifyCore (a : Actor) (property : String) (index : ℕ)
    (patch : KeyframePropertyPatch) :
    actorTracksSorted (a.modifyKeyframePropertyCore property index patch) := by
  unfold Actor.modifyKeyframePropertyCore
  exact actorTracksSorted_invalidate (actorTracksSorted_sortPropertyTracks _)

theorem kapiTracksSorted_updateActor {k : Kapi} (aid : ℕ) (f : Actor → Actor)
    (hf : ∀ a, actorTracksSorted a → actorTracksSorted (f a))
    (h : kapiTracksSorted k) : kapiTracksSorted (k.updateActor aid f) := by
  intro p hp
  unfold Kapi.updateActor at hp
  simp only [List.mem_map] at hp
  obtain ⟨q, hq, hpq⟩ := hp
  by_cases hqa : q.1 = aid
  · rw [if_pos hqa] at hpq
    rw [← hpq]
    exact hf q.2 (h q hq)
  · rw [if_neg hqa] at hpq
    rw [← hpq]
    exact h q hq

theorem kapiTracksSorted_recalc {k : Kapi} (h : kapiTracksSorted k) :
    kapiTracksSorted k.recalculateAnimationLength := h

theorem kapiTracksSorted_addActorK {k : Kapi} (h : kapiTracksSorted k) (aid : ℕ)
    {a : Actor} (ha : actorTracksSorted a) : kapiTracksSorted (k.addActorK aid a) := by
  unfold Kapi.addActorK
  by_cases hc : (k.actors.lookup aid).isSome
  · rw [if_pos hc]
    exact h
  · rw [if_neg hc]
    intro p hp
    rcases List.mem_append.mp hp with hp | hp
    · exact h p hp
    · rcases List.mem_singleton.mp hp with rfl
      exact ha

theorem kapiTracksSorted_runActorOp {k : Kapi} (h : kapiTracksSorted k) (aid : ℕ)
    (op : ActorOp) : kapiTracksSorted (k.runActorOp aid op) := by
  cases op with
  | keyframe when_ position optEasing =>
    exact kapiTracksSorted_updateActor aid _ (fun a ha => actorTracksSorted_invalidate ha)
      (kapiTracksSorted_recalc
        (kapiTracksSorted_updateActor aid _
          (fun a ha => actorTracksSorted_keyframeLoop ha when_ position optEasing) h))
  | removeKeyframe when_ =>
    exact kapiTracksSorted_updateActor aid _ (fun a ha => actorTracksSorted_invalidate ha)
      (kapiTracksSorted_recalc
        (kapiTracksSorted_updateActor aid _
          (fun a ha => actorTracksSorted_removeKeyframeLoop ha when_) h))
  | modifyKeyframeProperty property index patch =>
    exact kapiTracksSorted_updateActor aid _
      (fun a _ => actorTracksSorted_modifyCore a property index patch) h

/-- C6: confirmed.  Starting from an engine populated with any number of
freshly constructed actors, after any finite sequence of `keyframe`,
`removeKeyframe`, and `modifyKeyframeProperty` calls (each targeting any
of the actors), every property track of every actor is sorted ascending
by millisecond. -/
theorem C6_tracks_always_sorted (inits : List ℕ) (ops : List (ℕ × ActorOp)) :
    kapiTracksSorted (ops.foldl (fun k p => k.runActorOp p.1 p.2)
      (inits.foldl (fun k aid => k.addActorK aid actorInit) kapiInit)) := by
  have hinit : ∀ (l : List ℕ) (k : Kapi), kapiTracksSorted k →
      kapiTracksSorted (l.foldl (fun k aid => k.addActorK aid actorInit) k) := by
    intro l
    induction l with
    | nil => exact fun k h => h
    | cons aid rest ih =>
      intro k h
      exact ih _ (kapiTracksSorted_addActorK h aid (fun p hp => absurd hp (List.not_mem_nil p)))
  have hops : ∀ (l : List (ℕ × ActorOp)) (k : Kapi), kapiTracksSorted k →
      kapiTracksSorted (l.foldl (fun k p => k.runActorOp p.1 p.2) k) := by
    intro l
    induction l with
    | nil => exact fun k h => h
    | cons p rest ih =>
      intro k h
      exact ih _ (kapiTracksSorted_runActorOp h p.1 p.2)
  exact hops ops _ (hinit inits kapiInit (fun p hp => absurd hp (List.not_mem_nil p)))
